import Mathlib

/-!
Verification of `mcp_python/shared/memory.py`: the in-memory transport
used to connect an in-process MCP client and server.

The embedding models anyio memory object streams as bounded FIFO queues
living in an explicit memory state; the two factory functions of the
source file are translated as pure state transformers, and the async
control flow of the session connector is modelled as the event trace it
produces.
-/

/-- Modelled from the spec: a well-formed protocol message
(`mcp_python.types.JSONRPCMessage` is not part of this fragment); its
internal structure is irrelevant here, so it is a wrapped payload. -/
structure JSONRPCMessage where
  payload : Nat
deriving DecidableEq

/-- Modelled from the spec: an exception value that can be carried through
a channel in place of a message. -/
structure Exn where
  code : Nat
deriving DecidableEq

/-- The element type of the underlying queues: either a protocol message
or a carried exception (`JSONRPCMessage | Exception` in the source). -/
inductive Envelope where
  | msg (m : JSONRPCMessage)
  | exc (e : Exn)
deriving DecidableEq

/-- One anyio memory object queue: a bounded FIFO buffer of envelopes with
independent closed flags for its send and receive ends. -/
structure Queue where
  capacity : Nat
  buffer : List Envelope
  sendClosed : Bool
  recvClosed : Bool
deriving DecidableEq

/-- The process memory: all queues allocated so far, addressed by index.
A fresh queue gets the next unused index, which models that each
`anyio.create_memory_object_stream` call returns a brand-new queue. -/
structure MemState where
  queues : List Queue
deriving DecidableEq

/-- A receive endpoint: one end of the queue it addresses. -/
structure MemoryObjectReceiveStream where
  qid : Nat
deriving DecidableEq

/-- A send endpoint: the other end of the queue it addresses.  Its public
operation (`sendMessage` below) accepts only `JSONRPCMessage`, matching
the declared type `MemoryObjectSendStream[JSONRPCMessage]`. -/
structure MemoryObjectSendStream where
  qid : Nat
deriving DecidableEq

/-- `MessageStream` from the source: a (receive endpoint, send endpoint)
pair, the receive side delivering `JSONRPCMessage | Exception`. -/
abbrev MessageStream := MemoryObjectReceiveStream × MemoryObjectSendStream

/-- The queue as `anyio.create_memory_object_stream` with capacity 1
creates it: empty buffer, both ends open. -/
def freshQueue : Queue :=
  { capacity := 1, buffer := [], sendClosed := false, recvClosed := false }

/-- `anyio.create_memory_object_stream[JSONRPCMessage | Exception](cap)`:
allocates a fresh queue of the given capacity and returns its
(send, receive) endpoint pair together with the new memory state. -/
def create_memory_object_stream (cap : Nat) (s : MemState) :
    (MemoryObjectSendStream × MemoryObjectReceiveStream) × MemState :=
  let qid := s.queues.length
  ((⟨qid⟩, ⟨qid⟩),
   ⟨s.queues ++ [{ capacity := cap, buffer := [], sendClosed := false,
                   recvClosed := false }]⟩)

/-- Look up a queue by index. -/
def getQueue (s : MemState) (qid : Nat) : Option Queue :=
  s.queues[qid]?

/-- Replace a queue by index. -/
def setQueue (s : MemState) (qid : Nat) (q : Queue) : MemState :=
  ⟨s.queues.set qid q⟩

/-- `create_client_server_memory_streams` from the source: creates the
server-to-client queue, then the client-to-server queue, both with
capacity 1, and packages the four endpoints into the mirrored
`client_streams` and `server_streams` pairs.  It takes no inputs (the
`MemState` argument is the ambient process memory, not a parameter of
the Python function; the capacity 1 is a literal in the source). -/
def create_client_server_memory_streams (s : MemState) :
    (MessageStream × MessageStream) × MemState :=
  let r1 := create_memory_object_stream 1 s
  let server_to_client_send := r1.1.1
  let server_to_client_receive := r1.1.2
  let r2 := create_memory_object_stream 1 r1.2
  let client_to_server_send := r2.1.1
  let client_to_server_receive := r2.1.2
  let client_streams : MessageStream :=
    (server_to_client_receive, client_to_server_send)
  let server_streams : MessageStream :=
    (client_to_server_receive, server_to_client_send)
  ((client_streams, server_streams), r2.2)

/-- Enqueue an envelope on a queue (the internal operation of the anyio
send end): succeeds iff the queue exists, neither end is closed, and the
buffer is below capacity; the envelope is appended at the back. -/
def trySendEnvelope (s : MemState) (qid : Nat) (v : Envelope) :
    Option MemState :=
  match getQueue s qid with
  | none => none
  | some q =>
    if q.sendClosed || q.recvClosed then none
    else if q.buffer.length < q.capacity then
      some (setQueue s qid { q with buffer := q.buffer ++ [v] })
    else none

/-- Dequeue the oldest envelope from a queue (the internal operation of
the anyio receive end): succeeds iff the queue exists and is nonempty;
the front envelope is removed and returned. -/
def tryReceiveEnvelope (s : MemState) (qid : Nat) :
    Option (Envelope × MemState) :=
  match getQueue s qid with
  | none => none
  | some q =>
    match q.buffer with
    | [] => none
    | v :: rest => some (v, setQueue s qid { q with buffer := rest })

/-- The public operation of a send endpoint: its declared element type is
`JSONRPCMessage`, so it can only ever enqueue a message envelope. -/
def sendMessage (st : MemoryObjectSendStream) (m : JSONRPCMessage)
    (s : MemState) : Option MemState :=
  trySendEnvelope s st.qid (Envelope.msg m)

/-- The public operation of a receive endpoint: delivers the next
envelope, which may be a message or a carried exception. -/
def receiveEnvelope (st : MemoryObjectReceiveStream) (s : MemState) :
    Option (Envelope × MemState) :=
  tryReceiveEnvelope s st.qid

/-- Close the send end of a queue (`MemoryObjectSendStream.aclose`). -/
def closeSendEnd (s : MemState) (qid : Nat) : MemState :=
  match getQueue s qid with
  | none => s
  | some q => setQueue s qid { q with sendClosed := true }

/-- Close the receive end of a queue (`MemoryObjectReceiveStream.aclose`). -/
def closeRecvEnd (s : MemState) (qid : Nat) : MemState :=
  match getQueue s qid with
  | none => s
  | some q => setQueue s qid { q with recvClosed := true }

/-- One endpoint-close step, identifying which endpoint is closed. -/
inductive CloseAction where
  | recv (qid : Nat)
  | send (qid : Nat)
deriving DecidableEq

def applyClose (s : MemState) (a : CloseAction) : MemState :=
  match a with
  | CloseAction.recv qid => closeRecvEnd s qid
  | CloseAction.send qid => closeSendEnd s qid

/-- The factory exit path, from the source's `async with
(server_to_client_receive, client_to_server_send, client_to_server_receive,
server_to_client_send)`: one close action per endpoint, in source order. -/
def factoryExitCloses (cs ss : MessageStream) : List CloseAction :=
  [CloseAction.recv cs.1.qid, CloseAction.send cs.2.qid,
   CloseAction.recv ss.1.qid, CloseAction.send ss.2.qid]

/-- Running the factory exit path on a state. -/
def factoryExit (s : MemState) (cs ss : MessageStream) : MemState :=
  (factoryExitCloses cs ss).foldl applyClose s

/-- Overwrite a queue's buffer, modelling an arbitrary number of
messages in flight at scope-exit time. -/
def withBuffer (s : MemState) (qid : Nat) (b : List Envelope) : MemState :=
  match getQueue s qid with
  | none => s
  | some q => setQueue s qid { q with buffer := b }

/-- One operation at one end of a single queue: a producer writing a
protocol message, or the consumer taking the next envelope. -/
inductive QOp where
  | send (m : JSONRPCMessage)
  | recv
deriving DecidableEq

/-- Outcome of running a sequence of operations against one queue:
the final queue, the messages actually written (a send into a full or
closed queue does not write: anyio blocks the producer instead), and the
envelopes delivered to the consumer, in delivery order. -/
structure RunResult where
  final : Queue
  accepted : List JSONRPCMessage
  delivered : List Envelope
deriving DecidableEq

/-- Run a sequence of single-queue operations under the anyio memory
queue semantics: a write appends at the back when the buffer is below
capacity, a read removes from the front when the buffer is nonempty;
blocked operations do not change the queue. -/
def runQueueOps (q : Queue) : List QOp → RunResult
  | [] => ⟨q, [], []⟩
  | QOp.send m :: ops =>
    if q.sendClosed || q.recvClosed then runQueueOps q ops
    else if q.buffer.length < q.capacity then
      let r := runQueueOps { q with buffer := q.buffer ++ [Envelope.msg m] } ops
      ⟨r.final, m :: r.accepted, r.delivered⟩
    else runQueueOps q ops
  | QOp.recv :: ops =>
    match q.buffer with
    | [] => runQueueOps q ops
    | v :: rest =>
      let r := runQueueOps { q with buffer := rest } ops
      ⟨r.final, r.accepted, v :: r.delivered⟩

/-- Modelled from the spec: the server collaborator's self-reported
initialization options (`Server.create_initialization_options` lives
outside this fragment); their content is irrelevant here. -/
structure InitOptions where
  opts : Nat
deriving DecidableEq

/-- Modelled from the spec: the server-side handler object, which can
produce initialization options and run a processing loop.  Only the
options it reports matter to the connector's wiring. -/
structure Server where
  initOpts : InitOptions
deriving DecidableEq

/-- The server's `create_initialization_options` method: returns its own
self-reported options. -/
def Server.create_initialization_options (srv : Server) : InitOptions :=
  srv.initOpts

/-- Modelled from the spec: outcome of the client initialization
handshake — success, or a failure (timeout, malformed response, or a
carried exception delivered through the channel), abstracted as a
carried exception value. -/
inductive InitOutcome where
  | ok
  | fail (e : Exn)
deriving DecidableEq

/-- Modelled from the spec: how the caller's body (the code run while
the session is yielded) finishes — normally, by raising, or by
cancellation of the enclosing scope. -/
inductive BodyOutcome where
  | ok
  | raised (e : Exn)
  | cancelled
deriving DecidableEq

/-- Observable events of one pass through
`create_connected_server_and_client_session`, in order. -/
inductive ConnectorEvent where
  | startServerTask (readQid writeQid : Nat) (opts : InitOptions)
      (raiseExceptions : Bool)
  | initCompleted
  | initFailed (e : Exn)
  | sessionYielded
  | bodyRaised (e : Exn)
  | cancelScopeCancelled
  | raisedToCaller (e : Exn)
  | endpointClosed (a : CloseAction)
deriving DecidableEq

/-- The event trace of `create_connected_server_and_client_session`,
translated from the source's control flow: acquire the paired streams,
start the server task on the server-side pair with the server's own
initialization options and the `raise_exceptions` flag, run the
handshake inside the `try`, yield only on handshake success, run the
`finally` cancellation of the task group's cancel scope on every path,
and close the four endpoints when the factory scope unwinds.  The
handshake and body outcomes are parameters because they are decided by
collaborators outside this fragment. -/
def connectorTrace (srv : Server) (raiseExceptions : Bool) (s : MemState)
    (init : InitOutcome) (body : BodyOutcome) : List ConnectorEvent :=
  let r := create_client_server_memory_streams s
  let client_streams := r.1.1
  let server_streams := r.1.2
  [ConnectorEvent.startServerTask server_streams.1.qid server_streams.2.qid
      (Server.create_initialization_options srv) raiseExceptions] ++
  (match init with
   | InitOutcome.ok =>
     [ConnectorEvent.initCompleted, ConnectorEvent.sessionYielded] ++
     (match body with
      | BodyOutcome.ok => []
      | BodyOutcome.raised e => [ConnectorEvent.bodyRaised e]
      | BodyOutcome.cancelled => []) ++
     [ConnectorEvent.cancelScopeCancelled] ++
     (match body with
      | BodyOutcome.raised e => [ConnectorEvent.raisedToCaller e]
      | _ => [])
   | InitOutcome.fail e =>
     [ConnectorEvent.initFailed e, ConnectorEvent.cancelScopeCancelled,
      ConnectorEvent.raisedToCaller e]) ++
  (factoryExitCloses client_streams server_streams).map
    ConnectorEvent.endpointClosed

theorem getQueue_concat_self (l : List Queue) (q : Queue) :
    getQueue ⟨l ++ [q]⟩ l.length = some q := by
  simp [getQueue]

theorem getQueue_concat_lt (l : List Queue) (q : Queue) (i : Nat)
    (h : i < l.length) : getQueue ⟨l ++ [q]⟩ i = l[i]? := by
  simp [getQueue, List.getElem?_append, h]

theorem getQueue_set_self (s : MemState) (i : Nat) (q : Queue)
    (h : i < s.queues.length) : getQueue (setQueue s i q) i = some q := by
  simp [getQueue, setQueue, List.getElem?_set_self, h]

theorem getQueue_set_ne (s : MemState) (i j : Nat) (q : Queue)
    (h : i ≠ j) : getQueue (setQueue s i q) j = getQueue s j := by
  simp [getQueue, setQueue, List.getElem?_set_ne h]

/-- After the factory runs on state `s`, the server-to-client queue sits
at index `s.queues.length` and is fresh. -/
theorem factory_getQueue_s2c (s : MemState) :
    getQueue (create_client_server_memory_streams s).2 s.queues.length =
      some freshQueue := by
  show getQueue ⟨(s.queues ++ [freshQueue]) ++ [freshQueue]⟩
      s.queues.length = some freshQueue
  rw [getQueue_concat_lt _ _ _ (by simp)]
  simp [List.getElem?_append, freshQueue]

/-- After the factory runs on state `s`, the client-to-server queue sits
at index `s.queues.length + 1` and is fresh. -/
theorem factory_getQueue_c2s (s : MemState) :
    getQueue (create_client_server_memory_streams s).2
      (s.queues.length + 1) = some freshQueue := by
  show getQueue ⟨(s.queues ++ [freshQueue]) ++ [freshQueue]⟩
      (s.queues.length + 1) = some freshQueue
  have h : (s.queues ++ [freshQueue]).length = s.queues.length + 1 := by simp
  rw [← h]
  exact getQueue_concat_self _ _

/-- The endpoint indices the factory hands out, in terms of the input
state: client pair is (receive at n, send at n+1), server pair is
(receive at n+1, send at n), where n is the next free index. -/
theorem factory_qids (s : MemState) :
    ((create_client_server_memory_streams s).1.1.1.qid = s.queues.length ∧
     (create_client_server_memory_streams s).1.1.2.qid = s.queues.length + 1) ∧
    ((create_client_server_memory_streams s).1.2.1.qid = s.queues.length + 1 ∧
     (create_client_server_memory_streams s).1.2.2.qid = s.queues.length) := by
  refine ⟨⟨rfl, ?_⟩, ?_, rfl⟩ <;>
    simp [create_client_server_memory_streams, create_memory_object_stream]

/-- Full normal form of the factory output: endpoint indices relative to
the input state, and the two fresh capacity-1 queues appended. -/
theorem factory_eq (s : MemState) :
    create_client_server_memory_streams s =
      (((⟨⟨s.queues.length⟩, ⟨s.queues.length + 1⟩⟩ : MessageStream),
        (⟨⟨s.queues.length + 1⟩, ⟨s.queues.length⟩⟩ : MessageStream)),
       ⟨s.queues ++ [freshQueue, freshQueue]⟩) := by
  simp [create_client_server_memory_streams, create_memory_object_stream,
    freshQueue]

theorem getQueue_pair_fst (l : List Queue) (a b : Queue) :
    getQueue ⟨l ++ [a, b]⟩ l.length = some a := by
  simp [getQueue, List.getElem?_append_right (Nat.le_refl l.length)]

theorem getQueue_pair_snd (l : List Queue) (a b : Queue) :
    getQueue ⟨l ++ [a, b]⟩ (l.length + 1) = some b := by
  rw [getQueue, List.getElem?_append_right (Nat.le_succ_of_le (Nat.le_refl _))]
  simp

theorem getQueue_lt (s : MemState) (i : Nat) (q : Queue)
    (h : getQueue s i = some q) : i < s.queues.length := by
  by_contra hc
  rw [getQueue, List.getElem?_eq_none (Nat.le_of_not_lt hc)] at h
  exact Option.noConfusion h

theorem withBuffer_getQueue_eq (s : MemState) (i : Nat) (q : Queue)
    (b : List Envelope) (h : getQueue s i = some q) :
    getQueue (withBuffer s i b) i = some { q with buffer := b } := by
  rw [withBuffer, h]
  exact getQueue_set_self s i _ (getQueue_lt s i q h)

theorem withBuffer_getQueue_ne (s : MemState) (i j : Nat)
    (b : List Envelope) (h : i ≠ j) :
    getQueue (withBuffer s i b) j = getQueue s j := by
  rw [withBuffer]
  cases hq : getQueue s i with
  | none => rfl
  | some q => exact getQueue_set_ne s i j _ h

theorem closeSendEnd_getQueue_eq (s : MemState) (i : Nat) (q : Queue)
    (h : getQueue s i = some q) :
    getQueue (closeSendEnd s i) i = some { q with sendClosed := true } := by
  rw [closeSendEnd, h]
  exact getQueue_set_self s i _ (getQueue_lt s i q h)

theorem closeSendEnd_getQueue_ne (s : MemState) (i j : Nat) (h : i ≠ j) :
    getQueue (closeSendEnd s i) j = getQueue s j := by
  rw [closeSendEnd]
  cases hq : getQueue s i with
  | none => rfl
  | some q => exact getQueue_set_ne s i j _ h

theorem closeRecvEnd_getQueue_eq (s : MemState) (i : Nat) (q : Queue)
    (h : getQueue s i = some q) :
    getQueue (closeRecvEnd s i) i = some { q with recvClosed := true } := by
  rw [closeRecvEnd, h]
  exact getQueue_set_self s i _ (getQueue_lt s i q h)

theorem closeRecvEnd_getQueue_ne (s : MemState) (i j : Nat) (h : i ≠ j) :
    getQueue (closeRecvEnd s i) j = getQueue s j := by
  rw [closeRecvEnd]
  cases hq : getQueue s i with
  | none => rfl
  | some q => exact getQueue_set_ne s i j _ h

theorem sendMessage_fresh (s : MemState) (i : Nat) (m : JSONRPCMessage)
    (h : getQueue s i = some freshQueue) :
    sendMessage ⟨i⟩ m s =
      some (setQueue s i { freshQueue with buffer := [Envelope.msg m] }) := by
  simp [sendMessage, trySendEnvelope, h, freshQueue]

theorem receiveEnvelope_cons (s : MemState) (i : Nat) (q : Queue)
    (v : Envelope) (rest : List Envelope)
    (h : getQueue s i = some q) (hb : q.buffer = v :: rest) :
    receiveEnvelope ⟨i⟩ s =
      some (v, setQueue s i { q with buffer := rest }) := by
  simp [receiveEnvelope, tryReceiveEnvelope, h, hb]

/-- The single-queue FIFO invariant: what was delivered so far followed
by what is still buffered is exactly the initial buffer followed by the
accepted writes, as message envelopes, in write order.  This packs
no-loss, no-duplication, no-reordering and single-delivery into one
equation. -/
theorem runQueueOps_fifo (ops : List QOp) (q : Queue) :
    (runQueueOps q ops).delivered ++ (runQueueOps q ops).final.buffer =
      q.buffer ++ List.map Envelope.msg (runQueueOps q ops).accepted := by
  induction ops generalizing q with
  | nil => simp [runQueueOps]
  | cons op ops ih =>
    cases op with
    | send m =>
      by_cases h1 : (q.sendClosed || q.recvClosed) = true
      · simp [runQueueOps, h1, ih]
      · by_cases h2 : q.buffer.length < q.capacity
        · simpa [runQueueOps, h1, h2] using ih { q with buffer := q.buffer ++ [Envelope.msg m] }
        · simp [runQueueOps, h1, h2, ih]
    | recv =>
      obtain ⟨cap, buf, sc, rc⟩ := q
      cases buf with
      | nil => simpa [runQueueOps] using ih ⟨cap, [], sc, rc⟩
      | cons v rest => simpa [runQueueOps] using ih ⟨cap, rest, sc, rc⟩

/-- C1: the two endpoint pairs returned by
`create_client_server_memory_streams` are mirrored over the same two
underlying queues: the client's send endpoint and the server's receive
endpoint address one queue (client-to-server), the server's send
endpoint and the client's receive endpoint address the other
(server-to-client), the two queues are distinct, and a message written
on either side's send endpoint is the very message delivered on the
peer's receive endpoint. -/
theorem c1_factory_pairs_mirrored (s : MemState) (m mSC : JSONRPCMessage) :
    ((create_client_server_memory_streams s).1.1.2.qid =
       (create_client_server_memory_streams s).1.2.1.qid) ∧
    ((create_client_server_memory_streams s).1.2.2.qid =
       (create_client_server_memory_streams s).1.1.1.qid) ∧
    ((create_client_server_memory_streams s).1.1.2.qid ≠
       (create_client_server_memory_streams s).1.2.2.qid) ∧
    (∃ s2 s3, sendMessage (create_client_server_memory_streams s).1.1.2 m
        (create_client_server_memory_streams s).2 = some s2 ∧
      receiveEnvelope (create_client_server_memory_streams s).1.2.1 s2 =
        some (Envelope.msg m, s3)) ∧
    (∃ s2 s3, sendMessage (create_client_server_memory_streams s).1.2.2 mSC
        (create_client_server_memory_streams s).2 = some s2 ∧
      receiveEnvelope (create_client_server_memory_streams s).1.1.1 s2 =
        some (Envelope.msg mSC, s3)) := by
  rw [factory_eq]
  refine ⟨rfl, rfl, by simp, ?_, ?_⟩
  · have h1 := sendMessage_fresh ⟨s.queues ++ [freshQueue, freshQueue]⟩
      (s.queues.length + 1) m (getQueue_pair_snd s.queues freshQueue freshQueue)
    have h2 := receiveEnvelope_cons
      (setQueue ⟨s.queues ++ [freshQueue, freshQueue]⟩ (s.queues.length + 1)
        { freshQueue with buffer := [Envelope.msg m] })
      (s.queues.length + 1)
      { freshQueue with buffer := [Envelope.msg m] }
      (Envelope.msg m) []
      (getQueue_set_self ⟨s.queues ++ [freshQueue, freshQueue]⟩
        (s.queues.length + 1) _ (by simp))
      rfl
    exact ⟨_, _, h1, h2⟩
  · have h1 := sendMessage_fresh ⟨s.queues ++ [freshQueue, freshQueue]⟩
      s.queues.length mSC (getQueue_pair_fst s.queues freshQueue freshQueue)
    have h2 := receiveEnvelope_cons
      (setQueue ⟨s.queues ++ [freshQueue, freshQueue]⟩ s.queues.length
        { freshQueue with buffer := [Envelope.msg mSC] })
      s.queues.length
      { freshQueue with buffer := [Envelope.msg mSC] }
      (Envelope.msg mSC) []
      (getQueue_set_self ⟨s.queues ++ [freshQueue, freshQueue]⟩
        s.queues.length _ (by simp))
      rfl
    exact ⟨_, _, h1, h2⟩

/-- C6: the factory takes no inputs (its Python signature is
parameterless; the `MemState` argument of the embedding is the ambient
process memory), and on every invocation both direction-specific queues
are created with the same fixed capacity of exactly 1. -/
theorem c6_capacity_is_one (s : MemState) :
    ∃ qa qb,
      getQueue (create_client_server_memory_streams s).2
        ((create_client_server_memory_streams s).1.2.2.qid) = some qa ∧
      getQueue (create_client_server_memory_streams s).2
        ((create_client_server_memory_streams s).1.1.2.qid) = some qb ∧
      qa.capacity = 1 ∧ qb.capacity = 1 := by
  refine ⟨freshQueue, freshQueue, ?_, ?_, rfl, rfl⟩
  · rw [factory_eq]
    exact getQueue_pair_fst _ _ _
  · rw [factory_eq]
    exact getQueue_pair_snd _ _ _

/-- C7: on the client-to-server queue created by the factory (and by the
same argument on its twin), any sequence of writes and reads delivers
exactly the accepted writes, in write order, with no reordering,
duplication or loss: the delivered envelopes followed by what remains
buffered equal the written messages, each consumed at most once. -/
theorem c7_fifo_delivery (s : MemState) (ops : List QOp) :
    ∃ q, getQueue (create_client_server_memory_streams s).2
        ((create_client_server_memory_streams s).1.1.2.qid) = some q ∧
      (runQueueOps q ops).delivered ++ (runQueueOps q ops).final.buffer =
        List.map Envelope.msg (runQueueOps q ops).accepted := by
  refine ⟨freshQueue, ?_, ?_⟩
  · rw [factory_eq]
    exact getQueue_pair_snd _ _ _
  · simpa [freshQueue] using runQueueOps_fifo ops freshQueue

/-- C4: on exit from the factory's scope the four endpoints — both
receive ends and both send ends — are closed, each appearing in the exit
path exactly once, and this holds for arbitrary buffer contents (any
number of messages in flight) at exit time, which survive untouched. -/
theorem c4_exit_closes_each_endpoint_once (s : MemState)
    (b1 b2 : List Envelope) :
    ((factoryExitCloses (create_client_server_memory_streams s).1.1
        (create_client_server_memory_streams s).1.2).count
      (CloseAction.recv (create_client_server_memory_streams s).1.1.1.qid)
        = 1 ∧
     (factoryExitCloses (create_client_server_memory_streams s).1.1
        (create_client_server_memory_streams s).1.2).count
      (CloseAction.send (create_client_server_memory_streams s).1.1.2.qid)
        = 1 ∧
     (factoryExitCloses (create_client_server_memory_streams s).1.1
        (create_client_server_memory_streams s).1.2).count
      (CloseAction.recv (create_client_server_memory_streams s).1.2.1.qid)
        = 1 ∧
     (factoryExitCloses (create_client_server_memory_streams s).1.1
        (create_client_server_memory_streams s).1.2).count
      (CloseAction.send (create_client_server_memory_streams s).1.2.2.qid)
        = 1) ∧
    ∃ qa qb,
      getQueue (factoryExit
          (withBuffer (withBuffer (create_client_server_memory_streams s).2
            s.queues.length b1) (s.queues.length + 1) b2)
          (create_client_server_memory_streams s).1.1
          (create_client_server_memory_streams s).1.2)
        s.queues.length = some qa ∧
      getQueue (factoryExit
          (withBuffer (withBuffer (create_client_server_memory_streams s).2
            s.queues.length b1) (s.queues.length + 1) b2)
          (create_client_server_memory_streams s).1.1
          (create_client_server_memory_streams s).1.2)
        (s.queues.length + 1) = some qb ∧
      qa.sendClosed = true ∧ qa.recvClosed = true ∧ qa.buffer = b1 ∧
      qb.sendClosed = true ∧ qb.recvClosed = true ∧ qb.buffer = b2 := by
  rw [factory_eq]
  have hne : s.queues.length ≠ s.queues.length + 1 := by omega
  have hne' : s.queues.length + 1 ≠ s.queues.length := by omega
  constructor
  · refine ⟨?_, ?_, ?_, ?_⟩ <;>
      simp [factoryExitCloses, List.count_cons, hne, hne']
  · simp only [factoryExit, factoryExitCloses, List.foldl_cons,
      List.foldl_nil, applyClose]
    have g1 : getQueue ⟨s.queues ++ [freshQueue, freshQueue]⟩
        s.queues.length = some freshQueue :=
      getQueue_pair_fst s.queues freshQueue freshQueue
    have g2 : getQueue ⟨s.queues ++ [freshQueue, freshQueue]⟩
        (s.queues.length + 1) = some freshQueue :=
      getQueue_pair_snd s.queues freshQueue freshQueue
    have gA1 := withBuffer_getQueue_eq _ _ _ b1 g1
    have gA2 := (withBuffer_getQueue_ne
      ⟨s.queues ++ [freshQueue, freshQueue]⟩ s.queues.length
      (s.queues.length + 1) b1 hne).trans g2
    have gB2 := withBuffer_getQueue_eq _ _ _ b2 gA2
    have gB1 := (withBuffer_getQueue_ne _ (s.queues.length + 1)
      s.queues.length b2 hne').trans gA1
    have t1n := closeRecvEnd_getQueue_eq _ _ _ gB1
    have t1n1 := (closeRecvEnd_getQueue_ne _ s.queues.length
      (s.queues.length + 1) hne).trans gB2
    have t2n1 := closeSendEnd_getQueue_eq _ _ _ t1n1
    have t2n := (closeSendEnd_getQueue_ne _ (s.queues.length + 1)
      s.queues.length hne').trans t1n
    have t3n1 := closeRecvEnd_getQueue_eq _ _ _ t2n1
    have t3n := (closeRecvEnd_getQueue_ne _ (s.queues.length + 1)
      s.queues.length hne').trans t2n
    have t4n := closeSendEnd_getQueue_eq _ _ _ t3n
    have t4n1 := (closeSendEnd_getQueue_ne _ s.queues.length
      (s.queues.length + 1) hne).trans t3n1
    exact ⟨⟨1, b1, true, true⟩, ⟨1, b2, true, true⟩, t4n, t4n1,
      rfl, rfl, rfl, rfl, rfl, rfl⟩

theorem getQueue_pair_lt (l : List Queue) (a b : Queue) (i : Nat)
    (h : i < l.length) : getQueue ⟨l ++ [a, b]⟩ i = l[i]? := by
  simp [getQueue, List.getElem?_append, h]

theorem trySendEnvelope_fresh (s : MemState) (i : Nat) (v : Envelope)
    (h : getQueue s i = some freshQueue) :
    trySendEnvelope s i v =
      some (setQueue s i { freshQueue with buffer := [v] }) := by
  simp [trySendEnvelope, h, freshQueue]

/-- C9: two successive invocations of the paired channel factory produce
disjoint queues: none of the second invocation's endpoint indices equals
any of the first invocation's, and a message sent on an endpoint of
either invocation leaves both queues of the other invocation untouched,
so it can never be delivered there. -/
theorem c9_invocations_isolated (s : MemState) (m mOld : JSONRPCMessage) :
    ((create_client_server_memory_streams
        (create_client_server_memory_streams s).2).1.1.1.qid ≠
       (create_client_server_memory_streams s).1.1.1.qid ∧
     (create_client_server_memory_streams
        (create_client_server_memory_streams s).2).1.1.1.qid ≠
       (create_client_server_memory_streams s).1.1.2.qid ∧
     (create_client_server_memory_streams
        (create_client_server_memory_streams s).2).1.1.2.qid ≠
       (create_client_server_memory_streams s).1.1.1.qid ∧
     (create_client_server_memory_streams
        (create_client_server_memory_streams s).2).1.1.2.qid ≠
       (create_client_server_memory_streams s).1.1.2.qid) ∧
    (∃ s3, sendMessage (create_client_server_memory_streams
          (create_client_server_memory_streams s).2).1.1.2 m
        (create_client_server_memory_streams
          (create_client_server_memory_streams s).2).2 = some s3 ∧
      getQueue s3 (create_client_server_memory_streams s).1.1.1.qid =
        getQueue (create_client_server_memory_streams
          (create_client_server_memory_streams s).2).2
          (create_client_server_memory_streams s).1.1.1.qid ∧
      getQueue s3 (create_client_server_memory_streams s).1.1.2.qid =
        getQueue (create_client_server_memory_streams
          (create_client_server_memory_streams s).2).2
          (create_client_server_memory_streams s).1.1.2.qid) ∧
    (∃ s4, sendMessage (create_client_server_memory_streams s).1.1.2 mOld
        (create_client_server_memory_streams
          (create_client_server_memory_streams s).2).2 = some s4 ∧
      getQueue s4 (create_client_server_memory_streams
          (create_client_server_memory_streams s).2).1.1.1.qid =
        getQueue (create_client_server_memory_streams
          (create_client_server_memory_streams s).2).2
          (create_client_server_memory_streams
            (create_client_server_memory_streams s).2).1.1.1.qid ∧
      getQueue s4 (create_client_server_memory_streams
          (create_client_server_memory_streams s).2).1.1.2.qid =
        getQueue (create_client_server_memory_streams
          (create_client_server_memory_streams s).2).2
          (create_client_server_memory_streams
            (create_client_server_memory_streams s).2).1.1.2.qid) := by
  rw [factory_eq, factory_eq]
  have hL : (s.queues ++ [freshQueue, freshQueue]).length =
      s.queues.length + 2 := by simp
  refine ⟨⟨?_, ?_, ?_, ?_⟩, ?_, ?_⟩
  · simp only [hL]; omega
  · simp only [hL]; omega
  · simp only [hL]; omega
  · simp only [hL]; omega
  · have h1 := sendMessage_fresh
      ⟨(s.queues ++ [freshQueue, freshQueue]) ++ [freshQueue, freshQueue]⟩
      ((s.queues ++ [freshQueue, freshQueue]).length + 1) m
      (getQueue_pair_snd (s.queues ++ [freshQueue, freshQueue])
        freshQueue freshQueue)
    refine ⟨_, h1, ?_, ?_⟩
    · exact getQueue_set_ne _ _ _ _ (by simp only [hL]; omega)
    · exact getQueue_set_ne _ _ _ _ (by simp only [hL]; omega)
  · have hold : getQueue
        ⟨(s.queues ++ [freshQueue, freshQueue]) ++ [freshQueue, freshQueue]⟩
        (s.queues.length + 1) = some freshQueue := by
      rw [getQueue_pair_lt _ _ _ _ (by simp only [hL]; omega)]
      have := getQueue_pair_snd s.queues freshQueue freshQueue
      simpa [getQueue] using this
    have h1 := sendMessage_fresh
      ⟨(s.queues ++ [freshQueue, freshQueue]) ++ [freshQueue, freshQueue]⟩
      (s.queues.length + 1) mOld hold
    refine ⟨_, h1, ?_, ?_⟩
    · exact getQueue_set_ne _ _ _ _ (by simp only [hL]; omega)
    · exact getQueue_set_ne _ _ _ _ (by simp only [hL]; omega)

/-- C10: the carried-exception envelope is asymmetric at the public
interface: the underlying queues hold `JSONRPCMessage | Exception`, so
an exception value enqueued internally on the server-to-client queue is
delivered as such by the client's receive endpoint, while the exposed
send endpoint's operation accepts only protocol messages and hence only
ever enqueues message envelopes. -/
theorem c10_envelope_asymmetry (s : MemState) (m : JSONRPCMessage)
    (e : Exn) :
    (∃ s2 s3, trySendEnvelope (create_client_server_memory_streams s).2
        (create_client_server_memory_streams s).1.2.2.qid
        (Envelope.exc e) = some s2 ∧
      receiveEnvelope (create_client_server_memory_streams s).1.1.1 s2 =
        some (Envelope.exc e, s3)) ∧
    (∃ s4 q, sendMessage (create_client_server_memory_streams s).1.2.2 m
        (create_client_server_memory_streams s).2 = some s4 ∧
      getQueue s4 (create_client_server_memory_streams s).1.2.2.qid =
        some q ∧
      q.buffer = [Envelope.msg m]) := by
  rw [factory_eq]
  constructor
  · have h1 := trySendEnvelope_fresh ⟨s.queues ++ [freshQueue, freshQueue]⟩
      s.queues.length (Envelope.exc e)
      (getQueue_pair_fst s.queues freshQueue freshQueue)
    have h2 := receiveEnvelope_cons
      (setQueue ⟨s.queues ++ [freshQueue, freshQueue]⟩ s.queues.length
        { freshQueue with buffer := [Envelope.exc e] })
      s.queues.length
      { freshQueue with buffer := [Envelope.exc e] }
      (Envelope.exc e) []
      (getQueue_set_self ⟨s.queues ++ [freshQueue, freshQueue]⟩
        s.queues.length _ (by simp))
      rfl
    exact ⟨_, _, h1, h2⟩
  · have h1 := sendMessage_fresh ⟨s.queues ++ [freshQueue, freshQueue]⟩
      s.queues.length m (getQueue_pair_fst s.queues freshQueue freshQueue)
    refine ⟨_, { freshQueue with buffer := [Envelope.msg m] }, h1, ?_, rfl⟩
    exact getQueue_set_self ⟨s.queues ++ [freshQueue, freshQueue]⟩
      s.queues.length _ (by simp)

/-- C2: whenever the session connector yields a session, the client
initialization handshake has already completed successfully: a yield
event appears in the trace only when the handshake outcome is success,
and only strictly after the handshake-completed event. -/
theorem c2_yield_only_after_handshake (srv : Server) (r : Bool)
    (s : MemState) (init : InitOutcome) (body : BodyOutcome)
    (h : ConnectorEvent.sessionYielded ∈ connectorTrace srv r s init body) :
    init = InitOutcome.ok ∧
    ∃ l1 l2, connectorTrace srv r s init body =
      l1 ++ ConnectorEvent.initCompleted ::
        ConnectorEvent.sessionYielded :: l2 := by
  cases init with
  | ok =>
    refine ⟨rfl, [ConnectorEvent.startServerTask
      (create_client_server_memory_streams s).1.2.1.qid
      (create_client_server_memory_streams s).1.2.2.qid
      (Server.create_initialization_options srv) r], _, rfl⟩
  | fail e =>
    exfalso
    simp [connectorTrace, factoryExitCloses] at h

/-- C3: on every exit path of the session connector — handshake success
with the body finishing normally, raising, or being cancelled, and
handshake failure — the background server task's cancel scope receives a
cancellation request. -/
theorem c3_server_task_cancelled_on_exit (srv : Server) (r : Bool)
    (s : MemState) (init : InitOutcome) (body : BodyOutcome) :
    ConnectorEvent.cancelScopeCancelled ∈
      connectorTrace srv r s init body := by
  cases init <;> cases body <;> simp [connectorTrace]

/-- C5: if the handshake fails with a carried failure `e`, the connector
never yields a session, the failure is raised to the caller, the server
task is still cancelled, and the trace still ends with the factory's
four endpoint closes. -/
theorem c5_handshake_failure_propagates (srv : Server) (r : Bool)
    (s : MemState) (e : Exn) (body : BodyOutcome) :
    ConnectorEvent.sessionYielded ∉
      connectorTrace srv r s (InitOutcome.fail e) body ∧
    ConnectorEvent.raisedToCaller e ∈
      connectorTrace srv r s (InitOutcome.fail e) body ∧
    ConnectorEvent.cancelScopeCancelled ∈
      connectorTrace srv r s (InitOutcome.fail e) body ∧
    ∃ pre, connectorTrace srv r s (InitOutcome.fail e) body =
      pre ++ (factoryExitCloses (create_client_server_memory_streams s).1.1
        (create_client_server_memory_streams s).1.2).map
          ConnectorEvent.endpointClosed := by
  refine ⟨?_, ?_, ?_, ?_⟩
  · simp [connectorTrace, factoryExitCloses]
  · simp [connectorTrace]
  · simp [connectorTrace]
  · exact ⟨[ConnectorEvent.startServerTask
      (create_client_server_memory_streams s).1.2.1.qid
      (create_client_server_memory_streams s).1.2.2.qid
      (Server.create_initialization_options srv) r,
      ConnectorEvent.initFailed e, ConnectorEvent.cancelScopeCancelled,
      ConnectorEvent.raisedToCaller e], rfl⟩

/-- C8: the very first action of the connector is to start the server
task bound to the server-side endpoint pair (server receive endpoint,
server send endpoint), with the options returned by the server's own
`create_initialization_options` method and with `raise_exceptions`
equal to the flag the connector was given. -/
theorem c8_server_task_arguments (srv : Server) (r : Bool) (s : MemState)
    (init : InitOutcome) (body : BodyOutcome) :
    (connectorTrace srv r s init body).head? =
      some (ConnectorEvent.startServerTask
        (create_client_server_memory_streams s).1.2.1.qid
        (create_client_server_memory_streams s).1.2.2.qid
        (Server.create_initialization_options srv) r) := by
  rfl

/-- Concrete instantiation of the yield-after-handshake theorem: a
successful handshake with a trivially succeeding body on empty memory. -/
theorem c2_yield_only_after_handshake_witness :
    InitOutcome.ok = InitOutcome.ok ∧
    ∃ l1 l2, connectorTrace ⟨⟨0⟩⟩ false ⟨[]⟩ InitOutcome.ok BodyOutcome.ok =
      l1 ++ ConnectorEvent.initCompleted ::
        ConnectorEvent.sessionYielded :: l2 :=
  c2_yield_only_after_handshake ⟨⟨0⟩⟩ false ⟨[]⟩ InitOutcome.ok
    BodyOutcome.ok (by decide)
